import Mathlib

/-!
Formal model of the StockSavvy historical-data ingestion and price-change
pipeline (Django/Celery application), shallowly embedded in Lean.

Conventions of the embedding:
* Python `date`/`datetime` values are modelled as integers (`Int`), counting
  days; `timedelta(days=n)` is integer addition/subtraction.  Calendar dates
  that are parsed from strings are modelled by the `PyDate` structure.
* Monetary quantities (Django `DecimalField`) are modelled as rationals (`ℚ`).
* Fallible Python code is modelled with `Option`/`Except`; a raised-and-caught
  exception becomes `none`, an uncaught `TypeError` becomes
  `Except.error PyError.typeError`.
* Database tables are modelled as lists of row structures; querysets are the
  corresponding list computations.
-/

namespace StockSavvy

/-- Uncaught Python exceptions that the modelled code can raise. -/
inductive PyError where
  | typeError
deriving DecidableEq, Repr

/-! ### Calendar dates and ISO parsing

Models `datetime.date.fromisoformat` (strict `YYYY-MM-DD`, as used by
`get_available_dates` in `app/apps/stocks/utils/task_utils.py`) and
`datetime.strptime(s, "%Y-%m-%d")` (which also accepts unpadded fields, as
used by the `load_stock_data` management command). -/

/-- A parsed calendar date, as produced by Python's date parsing. -/
structure PyDate where
  year : Nat
  month : Nat
  day : Nat
deriving DecidableEq, Repr

/-- Gregorian leap-year rule, as implemented by Python's `datetime`. -/
def isLeapYear (y : Nat) : Bool :=
  (y % 4 == 0 && y % 100 != 0) || y % 400 == 0

/-- Number of days in a month of a given year. -/
def daysInMonth (y m : Nat) : Nat :=
  if m == 2 then (if isLeapYear y then 29 else 28)
  else if m == 4 || m == 6 || m == 9 || m == 11 then 30
  else 31

/-- Validity of a (year, month, day) triple for Python's `datetime.date`
(which requires `1 <= year <= 9999`). -/
def validDate (y m d : Nat) : Bool :=
  1 ≤ y && y ≤ 9999 && 1 ≤ m && m ≤ 12 && 1 ≤ d && d ≤ daysInMonth y m

/-- Numeric value of a list of decimal digit characters. -/
def natOfDigits (cs : List Char) : Nat :=
  cs.foldl (fun acc c => acc * 10 + (c.toNat - 48)) 0

/-- Model of `datetime.date.fromisoformat`: accepts exactly `YYYY-MM-DD`
with zero-padded fields, and validates the calendar date. Any other input
raises `ValueError`, modelled as `none`. -/
def fromisoformat (s : String) : Option PyDate :=
  match s.toList with
  | [y1, y2, y3, y4, h1, m1, m2, h2, d1, d2] =>
    if h1 == '-' && h2 == '-'
        && [y1, y2, y3, y4].all Char.isDigit
        && [m1, m2].all Char.isDigit
        && [d1, d2].all Char.isDigit then
      let y := natOfDigits [y1, y2, y3, y4]
      let m := natOfDigits [m1, m2]
      let d := natOfDigits [d1, d2]
      if validDate y m d then some ⟨y, m, d⟩ else none
    else none
  | _ => none

/-- Splits a character list on the dash character, the grouping used to model
`strptime` with the `%Y-%m-%d` format string. -/
def splitOnDash (cs : List Char) : List (List Char) :=
  cs.foldr
    (fun c acc =>
      if c = '-' then [] :: acc
      else
        match acc with
        | [] => [[c]]
        | g :: gs => (c :: g) :: gs)
    [[]]

/-- Model of `datetime.strptime(s, "%Y-%m-%d").date()`: three dash-separated
all-digit groups (year up to 4 digits, month and day up to 2, unpadded
accepted), validated as a calendar date. Failure (`ValueError`) is `none`. -/
def strptime_Ymd (s : String) : Option PyDate :=
  match splitOnDash s.toList with
  | [ys, ms, ds] =>
    if ys.all Char.isDigit && ms.all Char.isDigit && ds.all Char.isDigit
        && decide (1 ≤ ys.length) && decide (ys.length ≤ 4)
        && decide (1 ≤ ms.length) && decide (ms.length ≤ 2)
        && decide (1 ≤ ds.length) && decide (ds.length ≤ 2) then
      let y := natOfDigits ys
      let m := natOfDigits ms
      let d := natOfDigits ds
      if validDate y m d then some ⟨y, m, d⟩ else none
    else none
  | _ => none

/-! ### JSON responses and `get_available_dates`

Models `get_available_dates` from `app/apps/stocks/utils/task_utils.py`:
the MOEX `dates.json` response is fetched, `data["dates"]["data"][0]` is
unpacked into two strings and both are parsed with `date.fromisoformat`.
Every exception (RequestException, KeyError, IndexError, TypeError,
ValueError, anything else) is caught and turned into `None`. -/

/-- A JSON value, as returned by `response.json()`. -/
inductive Json where
  | null
  | bool (b : Bool)
  | num (n : Int)
  | str (s : String)
  | arr (items : List Json)
  | obj (fields : List (String × Json))

/-- Dictionary lookup `j[key]`.  On a non-object (Python raises `TypeError`
or `KeyError`, both caught by `get_available_dates`) the lookup is `none`. -/
def Json.getField : Json → String → Option Json
  | .obj fields, key => (fields.find? (fun p => p.1 == key)).map (fun p => p.2)
  | _, _ => none

/-- Indexing `j[0]`.  On an empty array Python raises `IndexError`; on a
non-array it raises `TypeError`; both are caught, hence `none`.  (A string
would support `[0]`, but its single-character result can never unpack into
two valid ISO date strings, so collapsing it to `none` preserves the
observable behaviour of `get_available_dates`.) -/
def Json.firstItem : Json → Option Json
  | .arr (x :: _) => some x
  | _ => none

/-- The key list of a Python dict built from a JSON object: iteration
order is insertion order of the first occurrence of each key, and a
repeated key does not add a second entry. -/
def dictKeys (fields : List (String × Json)) : List String :=
  fields.foldl (fun ks p => if p.1 ∈ ks then ks else ks ++ [p.1]) []

/-- Tuple unpacking `a, b = j` followed by use as strings.  Python accepts
any 2-iterable: a two-element array unpacks into its elements, and a dict
unpacks into its keys — always strings — so an object with exactly two
distinct keys yields those keys.  A two-element array reaches the parsing
step only when both components are strings: otherwise the subsequent
`date.fromisoformat` raises `TypeError`, which is caught.  A two-character
string also unpacks (into single characters), but single-character strings
can never parse as ISO dates, so collapsing that case to `none` preserves
the observable behaviour of `get_available_dates`. -/
def Json.asStrPair : Json → Option (String × String)
  | .arr [.str s1, .str s2] => some (s1, s2)
  | .obj fields =>
    match dictKeys fields with
    | [k1, k2] => some (k1, k2)
    | _ => none
  | _ => none

/-- Model of `get_available_dates(ticker)`.  The argument is the provider's
response: `none` models a network failure (`RequestException`), `some j` a
JSON body.  Returns the parsed `(from_, till)` pair, or `none` on any
failure. -/
def get_available_dates (resp : Option Json) : Option (PyDate × PyDate) := do
  let data ← resp
  let dates ← data.getField "dates"
  let dataField ← dates.getField "data"
  let first ← dataField.firstItem
  let p ← first.asStrPair
  let d1 ← fromisoformat p.1
  let d2 ← fromisoformat p.2
  pure (d1, d2)

/-- Modelled from the spec: a well-formed `dates.json` response, i.e. a JSON
object whose `dates.data` member is a non-empty array whose first element is
a pair of ISO `YYYY-MM-DD` date strings (spec section 6 gives the shape
`\x7b"dates": \x7b"data": [[start_iso, end_iso], ...]\x7d\x7d`). -/
def wellFormedDatesResponse (resp : Option Json) : Prop :=
  ∃ j dates dataField first s1 s2 d1 d2,
    resp = some j ∧
    j.getField "dates" = some dates ∧
    dates.getField "data" = some dataField ∧
    dataField.firstItem = some first ∧
    first = Json.arr [Json.str s1, Json.str s2] ∧
    fromisoformat s1 = some d1 ∧
    fromisoformat s2 = some d2

/-- The first element of the `data` array of a malformed `dates.json`
response: an object (not the documented two-string array) whose two keys
happen to be ISO date strings.  Unpacking it yields its keys. -/
def malformedDatesFirst : Json :=
  .obj [("2020-01-01", .num 0), ("2021-01-01", .num 0)]

/-- The `data` member of the malformed response. -/
def malformedDatesData : Json := .arr [malformedDatesFirst]

/-- The `dates` member of the malformed response. -/
def malformedDatesInner : Json := .obj [("data", malformedDatesData)]

/-- A malformed `dates.json` response on which `get_available_dates`
nevertheless returns a date pair. -/
def malformedDatesResp : Json := .obj [("dates", malformedDatesInner)]

/-! ### Date-window reconciliation

Models the inline window reconciliation of `load_historical_data_for_ticker`
(`app/apps/stocks/tasks.py`, lines 243-255).  Dates are day numbers (`Int`);
`timedelta` arithmetic is integer arithmetic.  In the branch where only
`start_date` is given the source evaluates the chained comparison
`from_ <= start_date < end_date` while `end_date` is still `None`; when
`from_ <= start_date` holds, Python then evaluates `start_date < None`,
which raises an uncaught `TypeError` (short-circuiting hides it when
`from_ <= start_date` is false). -/

/-- The effective fetch-window computation of `load_historical_data_for_ticker`. -/
def reconcile_fetch_window (from_ till : Int) (start_date end_date : Option Int) :
    Except PyError (Int × Int) :=
  match start_date, end_date with
  | some s, some e =>
      let num_of_days : Int := e - s
      let e2 : Int := if from_ < e ∧ e ≤ till then e else till
      let s2 : Int := if from_ ≤ s ∧ s < e2 then s else e2 - num_of_days
      .ok (s2, e2)
  | some s, none =>
      if from_ ≤ s then .error .typeError
      else .ok (from_, till)
  | none, some e =>
      let e2 : Int := if from_ < e ∧ e ≤ till then e else till
      .ok (from_, e2)
  | none, none => .ok (from_, till)

/-! ### Candles, the price-change window, and `calculate_price_change`

A `Candle` row (`app/apps/stocks/models.py`): OHLCV decimals plus a half-open
`time_range` with `lower`/`upper` bounds.  Time instants are modelled as
integers (days); prices as rationals. -/

/-- A row of the `Candle` table. -/
structure CandleRow where
  ticker : String
  open_ : ℚ
  close : ℚ
  high : ℚ
  low : ℚ
  value : ℚ
  volume : ℚ
  lower : Int
  upper : Int
deriving DecidableEq, Repr

/-- PostgreSQL ordering on ranges (lower bound first, then upper bound),
the order used by `order_by('time_range')`. -/
def timeRangeLE (a b : CandleRow) : Prop :=
  a.lower < b.lower ∨ (a.lower = b.lower ∧ a.upper ≤ b.upper)

instance : DecidableRel timeRangeLE := fun a b => by
  unfold timeRangeLE; infer_instance

/-- Reverse range ordering, used by the model `Meta.ordering ('-time_range',)`
(newest first). -/
def timeRangeGE (a b : CandleRow) : Prop := timeRangeLE b a

instance : DecidableRel timeRangeGE := fun a b => by
  unfold timeRangeGE; infer_instance

/-- PostgreSQL `&&` overlap of the half-open ranges `[lo1, hi1)` and
`[lo2, hi2)`; an empty range overlaps nothing. -/
def rangesOverlap (lo1 hi1 lo2 hi2 : Int) : Bool :=
  decide (lo1 < hi1) && decide (lo2 < hi2) && decide (lo1 < hi2) && decide (lo2 < hi1)

/-- The queryset built by `calculate_price_change`
(`app/apps/stocks/utils/task_utils.py`, line 127):
`stock.candles.filter(time_range__overlap=[last_days - timedelta(days=1),
tz_now + timedelta(days=1)]).order_by('time_range')`, where
`last_days = tz_now - timedelta(days=days)` and `tz_now` (`now` below) is
the current time truncated to midnight. -/
def price_change_window_candles (candles : List CandleRow) (now days : Int) :
    List CandleRow :=
  List.insertionSort timeRangeLE
    (candles.filter (fun c => rangesOverlap c.lower c.upper (now - days - 1) (now + 1)))

/-- Modelled from the spec: the window the spec ascribes to the price-change
computation, `[now - trailing_days, now + 1 day]` without the extra one-day
buffer that the source subtracts from the lower bound. -/
def specPriceChangeOverlap (c : CandleRow) (now days : Int) : Bool :=
  rangesOverlap c.lower c.upper (now - days) (now + 1)

/-- Model of `calculate_price_change(stock, days)`: first/last candle of the
window queryset, absolute change `last.close - first.open`, percentage
change `(change / first.open) * 100` guarded by `first.open != 0`, and the
negative-zero normalisation `0 if x == -0 else x` (over exact rationals
`-0 = 0`, so the guard compares with zero, exactly as Python's numeric
`==` does). -/
def calculate_price_change (candles : List CandleRow) (now days : Int) : ℚ × ℚ :=
  let candles_per_days := price_change_window_candles candles now days
  match candles_per_days.head?, candles_per_days.getLast? with
  | some first, some last =>
    let price_change := last.close - first.open_
    if first.open_ ≠ 0 then
      let percent_change := price_change / first.open_ * 100
      (if price_change = -0 then 0 else price_change,
       if percent_change = -0 then 0 else percent_change)
    else (0, 0)
  | _, _ => (0, 0)

/-! ### Idempotent candle insertion

Models `Candle.objects.bulk_create(batch, ignore_conflicts=True)` inside
`load_historical_data_for_ticker` (`app/apps/stocks/tasks.py`, lines
257-273).  The unique constraint is `unique_together = ('stock',
'time_range')`.  With `ignore_conflicts=True` PostgreSQL skips conflicting
rows (including conflicts against rows inserted earlier in the same batch)
and Django returns the full list of model instances that was passed in, so
`len(created)` is the batch length, not the number of rows inserted. -/

/-- The unique key of a candle row: `(stock, time_range)`. -/
def candleKey (c : CandleRow) : String × Int × Int := (c.ticker, c.lower, c.upper)

/-- Whether the table already holds a row with the same `(stock, time_range)` key. -/
def hasCandleKey (t : List CandleRow) (c : CandleRow) : Prop :=
  ∃ d ∈ t, candleKey d = candleKey c

instance hasCandleKey.instDecidable (t : List CandleRow) (c : CandleRow) :
    Decidable (hasCandleKey t c) := by
  unfold hasCandleKey; infer_instance

/-- Insertion of one row with `ON CONFLICT DO NOTHING` semantics. -/
def candleInsertStep (t : List CandleRow) (c : CandleRow) : List CandleRow :=
  if hasCandleKey t c then t else t ++ [c]

/-- Model of the bulk insert: the new table state, paired with the number
the task adds to `created_candles`, namely `len(created)` where `created`
is Django's return value — the whole batch. -/
def insert_candles (table batch : List CandleRow) : List CandleRow × Nat :=
  (batch.foldl candleInsertStep table, batch.length)

/-! ### The per-ticker ingestion task -/

/-- A raw candle record as yielded by the provider stream (`moexalgo`). -/
structure RawCandle where
  open_ : ℚ
  close : ℚ
  high : ℚ
  low : ℚ
  value : ℚ
  volume : ℚ
  begin_ : Int
  end_ : Int
deriving DecidableEq, Repr

/-- Construction of a `Candle` model instance from a raw record, as in the
comprehension inside `load_historical_data_for_ticker`. -/
def rawToCandle (ticker : String) (c : RawCandle) : CandleRow :=
  ⟨ticker, c.open_, c.close, c.high, c.low, c.value, c.volume, c.begin_, c.end_⟩

/-- Model of `load_historical_data_for_ticker` after the stock lookup:
`dates` is the result of `get_available_dates` (already converted to day
numbers); `batches` abstracts the lazy batch sequence produced by
`load_candles` over the network.  When `dates` is `None` the task logs and
returns `created_candles = 0` without touching the table; otherwise it
reconciles the window and bulk-inserts each batch, accumulating
`len(created)` per batch. -/
def load_historical_data_for_ticker (table : List CandleRow) (ticker : String)
    (dates : Option (Int × Int)) (start_date end_date : Option Int)
    (batches : List (List RawCandle)) : Except PyError (List CandleRow × Nat) :=
  match dates with
  | none => .ok (table, 0)
  | some (from_, till) =>
    match reconcile_fetch_window from_ till start_date end_date with
    | .error e => .error e
    | .ok _ =>
      .ok (batches.foldl
        (fun acc batch =>
          let ins := insert_candles acc.1 (batch.map (rawToCandle ticker))
          (ins.1, acc.2 + ins.2))
        (table, 0))

/-! ### Stock rows, `Stock.save`, and the catalog upsert

`Stock.save` (`app/apps/stocks/models.py`, lines 221-224) upper-cases the
ticker before saving.  `load_available_stocks` (`app/apps/stocks/tasks.py`)
builds `Stock` instances straight from provider records and persists them
with `Stock.objects.bulk_create(..., update_conflicts=True,
unique_fields=['ticker'], update_fields=[...])`; `bulk_create` does not call
`save()`, so no ticker normalisation happens on that path. -/

/-- ASCII upper-casing of one character, as `str.upper` acts on ticker
symbols (MOEX SECIDs are ASCII). -/
def charUpper (c : Char) : Char :=
  if 'a' ≤ c ∧ c ≤ 'z' then Char.ofNat (c.toNat - 32) else c

/-- Model of Python's `str.upper()` on ticker strings. -/
def strUpper (s : String) : String := String.mk (s.data.map charUpper)

/-- The ticker actually stored when `Stock.save` runs: `if self.ticker:
self.ticker = self.ticker.upper()` (an empty — falsy — ticker is left
alone). -/
def stock_save_ticker (ticker : String) : String :=
  if ticker ≠ "" then strUpper ticker else ticker

/-- A provider catalog record (the fields used by the ticker-identity
claims: `SECID` plus a representative payload field). -/
structure RawStockRecord where
  secid : String
  shortname : String
deriving DecidableEq, Repr

/-- A row of the `Stock` table (ticker plus a representative payload field). -/
structure StockRow where
  ticker : String
  shortname : String
deriving DecidableEq, Repr

/-- Model of the `bulk_create(update_conflicts=True, unique_fields=['ticker'],
update_fields=[...])` upsert in `load_available_stocks`: conflicting rows
have their payload fields updated, new rows are appended; the key — the
ticker — is written exactly as the record supplied it. -/
def load_available_stocks_upsert (table : List StockRow)
    (records : List RawStockRecord) : List StockRow :=
  records.foldl
    (fun t r =>
      if ∃ s ∈ t, s.ticker = r.secid then
        t.map (fun s => if s.ticker = r.secid then ⟨s.ticker, r.shortname⟩ else s)
      else t ++ [⟨r.secid, r.shortname⟩])
    table

/-! ### The default Stock manager and the fan-out stages -/

/-- Model of `StockManager.get_queryset` (`app/apps/stocks/managers.py`):
every default-manager query excludes tickers present in the
`BlacklistedStock` table. -/
def StockManager_get_queryset (stocks : List StockRow)
    (blacklisted : List String) : List StockRow :=
  stocks.filter (fun s => decide (s.ticker ∉ blacklisted))

/-- The tickers that `load_historical_data` fans out to
(`Stock.objects.all().values('ticker')`, one
`load_historical_data_for_ticker` subtask each). -/
def load_historical_data_fanout (stocks : List StockRow)
    (blacklisted : List String) : List String :=
  (StockManager_get_queryset stocks blacklisted).map StockRow.ticker

/-- The tickers that `load_price_changes` fans out to
(one `load_price_changes_for_ticker` subtask each). -/
def load_price_changes_fanout (stocks : List StockRow)
    (blacklisted : List String) : List String :=
  (StockManager_get_queryset stocks blacklisted).map StockRow.ticker

/-! ### Read-side accessors on candles

`Stock.get_last_price` and `Stock.get_last_candle_date`
(`app/apps/stocks/models.py`, lines 292-326) read `self.candles.first()`.
The related queryset carries `Candle.Meta.ordering = ('-time_range',)`
(newest first), so `first()` is the newest candle; both methods fall back to
`None` when the stock has no candles.  The cache read path is modelled at a
cache miss, where the value is computed from the table. -/

/-- The candle queryset of a stock under the default ordering
`('-time_range',)`. -/
def candles_default_order (candles : List CandleRow) : List CandleRow :=
  List.insertionSort timeRangeGE candles

/-- Model of `Stock.get_last_price`: `first_candle.close if first_candle
else None`. -/
def get_last_price (candles : List CandleRow) : Option ℚ :=
  (candles_default_order candles).head?.map CandleRow.close

/-- Model of `Stock.get_last_candle_date`: `first_candle.time_range.upper
if first_candle else None`. -/
def get_last_candle_date (candles : List CandleRow) : Option Int :=
  (candles_default_order candles).head?.map CandleRow.upper

/-! ### The `load_stock_data` management command

`Command.handle` (`app/apps/stocks/management/commands/load_stock_data.py`)
parses the optional `--start_date`/`--end_date` strings with
`datetime.strptime(s, '%Y-%m-%d')`; a `ValueError` is reported to stderr and
the handler returns before dispatching anything.  On success it calls
`load_stock_data.delay(start_date=start_date, end_date=end_date)` — but the
task signature is `load_stock_data(update: bool = False)`, which accepts
neither keyword, so the call raises `TypeError` and no date-bounded load
ever runs. -/

/-- Outcome of one invocation of the management command. -/
inductive CommandResult where
  | userInputError
  | dispatchTypeError
  | taskDispatched (start_date end_date : Option PyDate)
deriving DecidableEq, Repr

/-- The keyword parameters `load_stock_data` actually declares. -/
def load_stock_data_params : List String := ["update"]

/-- Whether a keyword-argument list is accepted by the signature of
`load_stock_data` (Celery checks the signature when `.delay` is called). -/
def delayAccepts (kwargs : List String) : Bool :=
  kwargs.all (fun k => decide (k ∈ load_stock_data_params))

/-- Parsing of one optional command-line date: absent or empty (falsy)
values are passed through unparsed; a present value must be a valid
`%Y-%m-%d` date, else `ValueError`. -/
def parseCommandDate (arg : Option String) : Except Unit (Option PyDate) :=
  match arg with
  | none => .ok none
  | some s =>
    if s = "" then .ok none
    else
      match strptime_Ymd s with
      | some d => .ok (some d)
      | none => .error ()

/-- Model of `Command.handle`. -/
def command_handle (start_date end_date : Option String) : CommandResult :=
  match parseCommandDate start_date, parseCommandDate end_date with
  | .error _, _ => .userInputError
  | _, .error _ => .userInputError
  | .ok sd, .ok ed =>
    if delayAccepts ["start_date", "end_date"] then .taskDispatched sd ed
    else .dispatchTypeError

/-! ## Auxiliary lemmas -/

/-- The range order is reflexive. -/
theorem timeRangeLE_refl (a : CandleRow) : timeRangeLE a a :=
  Or.inr ⟨rfl, le_refl _⟩

instance : IsTotal CandleRow timeRangeLE := ⟨by
  intro a b
  rcases lt_trichotomy a.lower b.lower with h | h | h
  · exact Or.inl (Or.inl h)
  · rcases le_total a.upper b.upper with h2 | h2
    · exact Or.inl (Or.inr ⟨h, h2⟩)
    · exact Or.inr (Or.inr ⟨h.symm, h2⟩)
  · exact Or.inr (Or.inl h)⟩

instance : IsTrans CandleRow timeRangeLE := ⟨by
  intro a b c hab hbc
  rcases hab with h | ⟨he, h2⟩
  · rcases hbc with h' | ⟨he', _⟩
    · exact Or.inl (h.trans h')
    · exact Or.inl (he' ▸ h)
  · rcases hbc with h' | ⟨he', h2'⟩
    · exact Or.inl (he ▸ h')
    · exact Or.inr ⟨he.trans he', h2.trans h2'⟩⟩

instance : IsTotal CandleRow timeRangeGE := ⟨by
  intro a b
  exact (IsTotal.total (r := timeRangeLE) b a)⟩

instance : IsTrans CandleRow timeRangeGE := ⟨by
  intro a b c hab hbc
  exact IsTrans.trans (r := timeRangeLE) c b a hbc hab⟩

/-- Exact rationals have a single zero, so the negative-zero guard of
`calculate_price_change` is the identity. -/
theorem neg_zero_guard (x : ℚ) : (if x = -0 then 0 else x) = x := by
  rw [neg_zero]
  by_cases h : x = 0 <;> simp [h]

/-- Inserting a row cannot remove an existing `(stock, time_range)` key. -/
theorem hasCandleKey_mono (t : List CandleRow) (c d : CandleRow)
    (h : hasCandleKey t c) : hasCandleKey (candleInsertStep t d) c := by
  unfold candleInsertStep
  split
  · exact h
  · obtain ⟨x, hx, he⟩ := h
    exact ⟨x, List.mem_append_left _ hx, he⟩

/-- Bulk insertion cannot remove an existing `(stock, time_range)` key. -/
theorem hasCandleKey_foldl (b : List CandleRow) (t : List CandleRow) (c : CandleRow)
    (h : hasCandleKey t c) : hasCandleKey (b.foldl candleInsertStep t) c := by
  induction b generalizing t with
  | nil => exact h
  | cons d bs ih => exact ih _ (hasCandleKey_mono _ _ d h)

/-- After inserting a row, its key is present. -/
theorem hasCandleKey_step_self (t : List CandleRow) (c : CandleRow) :
    hasCandleKey (candleInsertStep t c) c := by
  unfold candleInsertStep
  split
  · assumption
  · exact ⟨c, List.mem_append_right _ (List.mem_singleton_self c), rfl⟩

/-- After bulk-inserting a batch, every key of the batch is present. -/
theorem hasCandleKey_of_mem_batch (b : List CandleRow) (t : List CandleRow)
    (c : CandleRow) (hc : c ∈ b) : hasCandleKey (b.foldl candleInsertStep t) c := by
  induction b generalizing t with
  | nil => cases hc
  | cons d bs ih =>
    rcases List.mem_cons.mp hc with rfl | h
    · exact hasCandleKey_foldl bs _ c (hasCandleKey_step_self t c)
    · exact ih (candleInsertStep t d) h

/-- Bulk insertion of a batch whose keys are all present is a no-op. -/
theorem foldl_insert_no_op (b : List CandleRow) (t : List CandleRow)
    (h : ∀ c ∈ b, hasCandleKey t c) : b.foldl candleInsertStep t = t := by
  induction b with
  | nil => rfl
  | cons c bs ih =>
    have hc : candleInsertStep t c = t := by
      unfold candleInsertStep
      rw [if_pos (h c (List.mem_cons_self c bs))]
    rw [List.foldl_cons, hc]
    exact ih (fun d hd => h d (List.mem_cons_of_mem _ hd))

/-! ## Claims -/

/-- C1 (counterexample). The claim states that for every available range
with `from_ <= till` and every requested pair the reconciled window
satisfies `from_ <= effective_start < effective_end <= till`.  It is false:
with `from_ = 100`, `till = 200`, `start_date = 50`, `end_date = 150`, the
end date is kept (it lies in `(from_, till]`) and the out-of-range start
date is "clamped" to `end_date - requested_span = 150 - 100 = 50`, which is
the original start date again, strictly below `from_`. -/
theorem C1_reconciler_bounds_counterexample :
    reconcile_fetch_window 100 200 (some 50) (some 150) = .ok (50, 150) ∧
    ¬ ((100 : Int) ≤ 50) :=
  ⟨rfl, by decide⟩

/-- C1 (amended). For every available range with `from_ <= till` and every
request on which the reconciler returns a window: the window satisfies
`effective_end <= till`; `from_ <= effective_start` holds whenever
`start_date` is absent; and `effective_start < effective_end` holds
whenever `from_ < till` and, if both bounds are given, the requested pair
is ordered (`start_date < end_date`).  The lower bound
`from_ <= effective_start` can fail when both bounds are given and the
start date is clamped to `effective_end - requested_span`. -/
theorem C1_reconciler_bounds_amended (from_ till : Int)
    (start_date end_date : Option Int) (havail : from_ ≤ till) (s2 e2 : Int)
    (hok : reconcile_fetch_window from_ till start_date end_date = .ok (s2, e2)) :
    e2 ≤ till ∧
    (start_date = none → from_ ≤ s2) ∧
    (from_ < till →
      (∀ s e, start_date = some s → end_date = some e → s < e) → s2 < e2) := by
  cases start_date with
  | none =>
    cases end_date with
    | none =>
      simp only [reconcile_fetch_window, Except.ok.injEq, Prod.mk.injEq] at hok
      obtain ⟨rfl, rfl⟩ := hok
      refine ⟨le_refl _, ?_, ?_⟩
      · intro _
        exact le_refl _
      · intro h _
        exact h
    | some e =>
      simp only [reconcile_fetch_window, Except.ok.injEq, Prod.mk.injEq] at hok
      obtain ⟨rfl, rfl⟩ := hok
      refine ⟨?_, ?_, ?_⟩
      · split <;> omega
      · intro _
        exact le_refl _
      · intro h _
        split <;> omega
  | some s =>
    cases end_date with
    | none =>
      simp only [reconcile_fetch_window] at hok
      split at hok
      · cases hok
      · simp only [Except.ok.injEq, Prod.mk.injEq] at hok
        obtain ⟨rfl, rfl⟩ := hok
        refine ⟨le_refl _, ?_, ?_⟩
        · intro h
          exact absurd h (Option.some_ne_none s)
        · intro h _
          exact h
    | some e =>
      simp only [reconcile_fetch_window, Except.ok.injEq, Prod.mk.injEq] at hok
      obtain ⟨rfl, rfl⟩ := hok
      refine ⟨?_, ?_, ?_⟩
      · split <;> omega
      · intro h
        exact absurd h (Option.some_ne_none s)
      · intro _ hse
        have hlt : s < e := hse s e rfl rfl
        by_cases hP : from_ < e ∧ e ≤ till
        · simp only [if_pos hP]
          by_cases hQ : from_ ≤ s ∧ s < e
          · simp only [if_pos hQ]
            omega
          · simp only [if_neg hQ]
            omega
        · simp only [if_neg hP]
          by_cases hQ : from_ ≤ s ∧ s < till
          · simp only [if_pos hQ]
            omega
          · simp only [if_neg hQ]
            omega

/-- C1 (witness). The amended bounds at the concrete request
`from_ = 100`, `till = 200`, `start_date = 120`, `end_date = 150`. -/
theorem C1_reconciler_bounds_amended_witness :
    (150 : Int) ≤ 200 ∧
    (some (120 : Int) = none → (100 : Int) ≤ 120) ∧
    ((100 : Int) < 200 →
      (∀ s e : Int, some (120 : Int) = some s → some (150 : Int) = some e → s < e) →
      (120 : Int) < 150) :=
  C1_reconciler_bounds_amended 100 200 (some 120) (some 150) (by decide) 120 150 rfl

/-- C2 (counterexample). The claim states that the price-change computation
selects exactly the candles overlapping `[now - trailing_days, now + 1 day]`.
It is false: with `now = 10` and `trailing_days = 1`, the candle with time
range `[8, 9)` does not overlap `[now - 1, now + 1) = [9, 11)`, yet the
source query (whose window lower bound is `now - days - 1`) selects it. -/
theorem C2_window_selection_counterexample :
    (⟨"SBER", 100, 101, 102, 99, 5, 5, 8, 9⟩ : CandleRow) ∈
      price_change_window_candles [⟨"SBER", 100, 101, 102, 99, 5, 5, 8, 9⟩] 10 1 ∧
    specPriceChangeOverlap (⟨"SBER", 100, 101, 102, 99, 5, 5, 8, 9⟩ : CandleRow) 10 1
      = false := by
  constructor <;> decide

/-- C2 (amended). For every stock and every `trailing_days`, the
price-change computation selects exactly the candles whose time range
overlaps `[now - trailing_days - 1 day, now + 1 day]` — one extra day below
the claimed window — where `now` is truncated to midnight, and orders them
by time range. -/
theorem C2_window_selection_amended (candles : List CandleRow) (now days : Int) :
    (∀ c, c ∈ price_change_window_candles candles now days ↔
      c ∈ candles ∧
        rangesOverlap c.lower c.upper (now - days - 1) (now + 1) = true) ∧
    List.Sorted timeRangeLE (price_change_window_candles candles now days) := by
  constructor
  · intro c
    unfold price_change_window_candles
    rw [List.mem_insertionSort, List.mem_filter]
  · exact List.sorted_insertionSort timeRangeLE _

/-- C3 (code bug). The claim states that when only `start_date` is given
the reconciler clamps it to `from_` when out of range and sets the end to
`till`, producing a window for every such input.  The code instead
evaluates `from_ <= start_date < end_date` with `end_date = None`: whenever
`from_ <= start_date` holds (here `from_ = 100 <= 150 = start_date`), the
comparison `start_date < None` raises `TypeError` and the task fails; only
a start date below `from_` short-circuits and yields `(from_, till)`. -/
theorem C3_start_only_type_error :
    reconcile_fetch_window 100 200 (some 150) none = .error .typeError ∧
    reconcile_fetch_window 100 200 (some 50) none = .ok (100, 200) :=
  ⟨rfl, rfl⟩

/-- C4 (code bug). The claim states that invalid operator-supplied dates
abort the run before dispatch — which holds — and that valid dates lead to
a dispatched, date-bounded load whose task accepts the `start_date` and
`end_date` arguments.  The latter is false: `Command.handle` calls
`load_stock_data.delay(start_date=..., end_date=...)` while the task's
signature is `load_stock_data(update: bool = False)`, so the call raises
`TypeError` and no date-bounded load ever runs. -/
theorem C4_command_dispatch_type_error :
    command_handle (some "2024-01-01") (some "2024-06-01") = .dispatchTypeError ∧
    (∀ sd ed, command_handle (some "2024-01-01") (some "2024-06-01") ≠
      .taskDispatched sd ed) ∧
    command_handle (some "2024-13-01") (some "2024-06-01") = .userInputError := by
  refine ⟨by decide, ?_, by decide⟩
  intro sd ed h
  have heq : command_handle (some "2024-01-01") (some "2024-06-01") =
      .dispatchTypeError := by decide
  rw [heq] at h
  exact CommandResult.noConfusion h

/-- C5 (confirmed). For every stock and trailing window: if no candles land
in the queryset window the computation returns `(0, 0)`; otherwise it
returns `value = last.close - first.open` and
`percent = value / first.open * 100` when `first.open ≠ 0`, and `(0, 0)`
when `first.open = 0`.  Over the exact rationals of the model, `-0 = 0`,
so the source's negative-zero normalisation (`0 if x == -0 else x`, an
equality test against zero followed by replacement with positive zero) is
value-preserving, and the returned components are exactly the formulas
above — in particular never a negative zero. -/
theorem C5_price_change_values (candles : List CandleRow) (now days : Int) :
    (price_change_window_candles candles now days = [] →
      calculate_price_change candles now days = (0, 0)) ∧
    (∀ c0 cn, (price_change_window_candles candles now days).head? = some c0 →
      (price_change_window_candles candles now days).getLast? = some cn →
      (c0.open_ = 0 → calculate_price_change candles now days = (0, 0)) ∧
      (c0.open_ ≠ 0 → calculate_price_change candles now days =
        (cn.close - c0.open_, (cn.close - c0.open_) / c0.open_ * 100))) := by
  constructor
  · intro h
    simp only [calculate_price_change]
    rw [h]
    rfl
  · intro c0 cn hh hl
    constructor
    · intro h0
      simp only [calculate_price_change]
      rw [hh, hl]
      dsimp only
      rw [if_neg (not_not_intro h0)]
    · intro h0
      simp only [calculate_price_change]
      rw [hh, hl]
      dsimp only
      rw [if_pos h0, neg_zero_guard, neg_zero_guard]

/-- C5 (witness). The price-change formulas at a single candle with
`open = 100`, `close = 105` in the trailing-day window of `now = 10`. -/
theorem C5_price_change_values_witness :
    calculate_price_change [⟨"SBER", 100, 105, 106, 99, 5, 5, 9, 10⟩] 10 1 =
      ((⟨"SBER", 100, 105, 106, 99, 5, 5, 9, 10⟩ : CandleRow).close -
        (⟨"SBER", 100, 105, 106, 99, 5, 5, 9, 10⟩ : CandleRow).open_,
       ((⟨"SBER", 100, 105, 106, 99, 5, 5, 9, 10⟩ : CandleRow).close -
        (⟨"SBER", 100, 105, 106, 99, 5, 5, 9, 10⟩ : CandleRow).open_) /
        (⟨"SBER", 100, 105, 106, 99, 5, 5, 9, 10⟩ : CandleRow).open_ * 100) :=
  ((C5_price_change_values [⟨"SBER", 100, 105, 106, 99, 5, 5, 9, 10⟩] 10 1).2
    ⟨"SBER", 100, 105, 106, 99, 5, 5, 9, 10⟩ ⟨"SBER", 100, 105, 106, 99, 5, 5, 9, 10⟩
    (by decide) (by decide)).2 (by decide)

/-- C6 (counterexample). The claim states that the count returned by the
candle bulk insert counts only newly inserted rows.  It is false: inserting
a batch consisting of one candle whose `(stock, time_range)` key is already
in the table inserts nothing (the table is unchanged), yet the task adds
`len(created) = 1` to its counter, because Django's
`bulk_create(ignore_conflicts=True)` returns every object that was passed
in, conflicting ones included. -/
theorem C6_insert_count_counterexample :
    insert_candles [⟨"SBER", 100, 105, 106, 99, 5, 5, 9, 10⟩]
        [⟨"SBER", 100, 105, 106, 99, 5, 5, 9, 10⟩] =
      ([⟨"SBER", 100, 105, 106, 99, 5, 5, 9, 10⟩], 1) ∧
    (1 : Nat) ≠ 0 := by
  constructor
  · rfl
  · decide

/-- C6 (amended). For every stock and every candle batch, inserting the
same batch twice leaves the candle table in the same state as inserting it
once; unique-constraint conflicts on `(stock, time_range)` are silently
skipped, never raised and never merged.  The count the task accumulates per
batch, however, is the full batch length (Django returns every passed
object under `ignore_conflicts=True`), not the number of newly inserted
rows. -/
theorem C6_insert_idempotent_amended (table batch : List CandleRow) :
    (insert_candles (insert_candles table batch).1 batch).1 =
      (insert_candles table batch).1 ∧
    (insert_candles table batch).2 = batch.length := by
  refine ⟨?_, rfl⟩
  exact foldl_insert_no_op batch _
    (fun c hc => hasCandleKey_of_mem_batch batch table c hc)

/-- C7 (counterexample). The claim states that the stored ticker is
upper-cased on every write path including the bulk catalog-refresh upsert.
It is false: `bulk_create` does not call `Stock.save`, so a catalog record
with `SECID = "abc"` is stored with ticker `"abc"`, which differs from its
upper-cased form. -/
theorem C7_bulk_upsert_case_counterexample :
    load_available_stocks_upsert [] [⟨"abc", "ABC Company"⟩] =
      [⟨"abc", "ABC Company"⟩] ∧
    (⟨"abc", "ABC Company"⟩ : StockRow).ticker ≠
      strUpper (⟨"abc", "ABC Company"⟩ : StockRow).ticker := by
  constructor
  · rfl
  · decide

/-- C7 (amended). The ticker is upper-cased at write time on the
`Stock.save` path (for any non-empty ticker); the bulk catalog-refresh
upsert bypasses `save` and writes every ticker exactly as supplied by the
catalog record — each stored ticker originates verbatim either from the
pre-existing table or from a record's `SECID`. -/
theorem C7_ticker_normalization_amended (t : String) (ht : t ≠ "") :
    stock_save_ticker t = strUpper t ∧
    ∀ (table : List StockRow) (records : List RawStockRecord) s,
      s ∈ load_available_stocks_upsert table records →
      s.ticker ∈ table.map StockRow.ticker ∨
        s.ticker ∈ records.map RawStockRecord.secid := by
  constructor
  · unfold stock_save_ticker
    rw [if_pos ht]
  · intro table records
    induction records generalizing table with
    | nil =>
      intro s hs
      exact Or.inl (List.mem_map_of_mem _ hs)
    | cons r rs ih =>
      intro s hs
      have hstep : load_available_stocks_upsert table (r :: rs) =
          load_available_stocks_upsert
            (if ∃ x ∈ table, x.ticker = r.secid then
              table.map (fun x =>
                if x.ticker = r.secid then ⟨x.ticker, r.shortname⟩ else x)
            else table ++ [⟨r.secid, r.shortname⟩]) rs := rfl
      rw [hstep] at hs
      rcases ih _ s hs with h | h
      · rw [List.mem_map] at h
        obtain ⟨x, hx, hxt⟩ := h
        by_cases hc : ∃ x ∈ table, x.ticker = r.secid
        · rw [if_pos hc] at hx
          rw [List.mem_map] at hx
          obtain ⟨y, hy, hyx⟩ := hx
          left
          rw [List.mem_map]
          refine ⟨y, hy, ?_⟩
          rw [← hxt, ← hyx]
          by_cases hyt : y.ticker = r.secid
          · rw [if_pos hyt]
          · rw [if_neg hyt]
        · rw [if_neg hc] at hx
          rcases List.mem_append.mp hx with hx' | hx'
          · exact Or.inl (hxt ▸ List.mem_map_of_mem _ hx')
          · right
            rw [List.mem_singleton] at hx'
            rw [List.mem_map]
            exact ⟨r, List.mem_cons_self r rs, by rw [← hxt, hx']⟩
      · right
        rw [List.mem_map] at h ⊢
        obtain ⟨x, hx, hxt⟩ := h
        exact ⟨x, List.mem_cons_of_mem r hx, hxt⟩

/-- C7 (witness). The `save`-path normalisation at the concrete ticker
`"sber"`, together with the verbatim bulk path on a singleton catalog. -/
theorem C7_ticker_normalization_amended_witness :
    stock_save_ticker "sber" = strUpper "sber" ∧
    ∀ (table : List StockRow) (records : List RawStockRecord) s,
      s ∈ load_available_stocks_upsert table records →
      s.ticker ∈ table.map StockRow.ticker ∨
        s.ticker ∈ records.map RawStockRecord.secid :=
  C7_ticker_normalization_amended "sber" (by decide)

/-- C8 (counterexample). The claim states that the available-date-range
lookup returns the `(from_date, till_date)` pair only on a well-formed
response.  It is false: on the malformed response whose `dates.data[0]` is
an object (not an array of two ISO strings) with keys `"2020-01-01"` and
`"2021-01-01"`, the tuple unpacking `start_date, end_date = data[0]` in
Python unpacks the dict into its string keys, which parse as ISO dates, so
`get_available_dates` returns a pair even though the response is not
well-formed. -/
theorem C8_available_dates_malformed_counterexample :
    get_available_dates (some malformedDatesResp) =
      some (⟨2020, 1, 1⟩, ⟨2021, 1, 1⟩) ∧
    ¬ wellFormedDatesResponse (some malformedDatesResp) := by
  refine ⟨by decide, ?_⟩
  rintro ⟨j, dj, df, fi, s1, s2, d1, d2, hj, h1, h2, h3, h4, -, -⟩
  cases hj
  rw [show malformedDatesResp.getField "dates" = some malformedDatesInner
    from rfl] at h1
  cases h1
  rw [show malformedDatesInner.getField "data" = some malformedDatesData
    from rfl] at h2
  cases h2
  rw [show malformedDatesData.firstItem = some malformedDatesFirst
    from rfl] at h3
  cases h3
  exact Json.noConfusion h4

/-- C8 (amended). For every ticker, the available-date-range lookup is a
total function into an optional pair — every failure (network error,
missing keys, empty data array, bad date format) yields `None`, never an
exception — and it returns the `(from_date, till_date)` pair on every
well-formed response; however a pair does not certify well-formedness, as
certain malformed responses (an object whose two keys are ISO date
strings in place of the two-string array) also yield a pair.  The
per-ticker ingestion treats a `None` date range as zero-work completion,
returning 0 created records with the table untouched and no error. -/
theorem C8_available_dates_zero_work_amended (resp : Option Json) :
    (wellFormedDatesResponse resp → ∃ p, get_available_dates resp = some p) ∧
    (∀ (table : List CandleRow) (ticker : String) (so eo : Option Int)
        (batches : List (List RawCandle)),
      load_historical_data_for_ticker table ticker none so eo batches =
        .ok (table, 0)) := by
  refine ⟨?_, fun _ _ _ _ _ => rfl⟩
  rintro ⟨j, dj, df, fi, s1, s2, d1, d2, rfl, h1, h2, h3, rfl, h5, h6⟩
  refine ⟨(d1, d2), ?_⟩
  simp [get_available_dates, h1, h2, h3, h5, h6, Json.asStrPair]

/-- C8 (witness). The amended lookup guarantee at a concrete well-formed
response carrying the range 2020-01-01 to 2024-01-01. -/
theorem C8_available_dates_zero_work_amended_witness :
    ∃ p, get_available_dates (some (Json.obj [("dates", Json.obj [("data",
      Json.arr [Json.arr [Json.str "2020-01-01", Json.str "2024-01-01"]])])])) =
      some p :=
  (C8_available_dates_zero_work_amended (some (Json.obj [("dates",
      Json.obj [("data", Json.arr [Json.arr [Json.str "2020-01-01",
        Json.str "2024-01-01"]])])]))).1
    ⟨Json.obj [("dates", Json.obj [("data", Json.arr [Json.arr
        [Json.str "2020-01-01", Json.str "2024-01-01"]])])],
      Json.obj [("data", Json.arr [Json.arr [Json.str "2020-01-01",
        Json.str "2024-01-01"]])],
      Json.arr [Json.arr [Json.str "2020-01-01", Json.str "2024-01-01"]],
      Json.arr [Json.str "2020-01-01", Json.str "2024-01-01"],
      "2020-01-01", "2024-01-01", ⟨2020, 1, 1⟩, ⟨2024, 1, 1⟩,
      rfl, rfl, rfl, rfl, rfl, rfl, rfl⟩

/-- C9 (confirmed). Every query through the default Stock manager excludes
blacklisted tickers, so a blacklisted ticker receives no historical-fetch
subtask and no price-change subtask in the fan-out stages. -/
theorem C9_blacklist_excluded (stocks : List StockRow) (blacklisted : List String)
    (t : String) (h : t ∈ blacklisted) :
    (∀ s ∈ StockManager_get_queryset stocks blacklisted, s.ticker ≠ t) ∧
    t ∉ load_historical_data_fanout stocks blacklisted ∧
    t ∉ load_price_changes_fanout stocks blacklisted := by
  have hq : ∀ s ∈ StockManager_get_queryset stocks blacklisted, s.ticker ≠ t := by
    intro s hs ht
    rw [StockManager_get_queryset, List.mem_filter] at hs
    obtain ⟨_, hfs⟩ := hs
    rw [decide_eq_true_iff] at hfs
    exact hfs (ht ▸ h)
  refine ⟨hq, ?_, ?_⟩
  · intro hmem
    rw [load_historical_data_fanout, List.mem_map] at hmem
    obtain ⟨s, hs, hst⟩ := hmem
    exact hq s hs hst
  · intro hmem
    rw [load_price_changes_fanout, List.mem_map] at hmem
    obtain ⟨s, hs, hst⟩ := hmem
    exact hq s hs hst

/-- C9 (witness). Blacklisting `"SBER"` removes it from the queryset and
from both fan-out stages of a concrete two-stock table. -/
theorem C9_blacklist_excluded_witness :
    (∀ s ∈ StockManager_get_queryset [⟨"SBER", "Sber"⟩, ⟨"GAZP", "Gazprom"⟩]
        ["SBER"], s.ticker ≠ "SBER") ∧
    "SBER" ∉ load_historical_data_fanout [⟨"SBER", "Sber"⟩, ⟨"GAZP", "Gazprom"⟩]
        ["SBER"] ∧
    "SBER" ∉ load_price_changes_fanout [⟨"SBER", "Sber"⟩, ⟨"GAZP", "Gazprom"⟩]
        ["SBER"] :=
  C9_blacklist_excluded [⟨"SBER", "Sber"⟩, ⟨"GAZP", "Gazprom"⟩] ["SBER"] "SBER"
    (by decide)

/-- C10 (confirmed). For a stock with no candles, `get_last_price` and
`get_last_candle_date` return `None` rather than raising; for a stock with
at least one candle, `get_last_price` returns the close of a newest candle
by time range and `get_last_candle_date` returns that candle's upper time
bound, the related queryset being ordered newest-first by default. -/
theorem C10_last_price_and_date (candles : List CandleRow) :
    (candles = [] →
      get_last_price candles = none ∧ get_last_candle_date candles = none) ∧
    (candles ≠ [] → ∃ c, c ∈ candles ∧ (∀ d ∈ candles, timeRangeLE d c) ∧
      get_last_price candles = some c.close ∧
      get_last_candle_date candles = some c.upper) := by
  constructor
  · rintro rfl
    exact ⟨rfl, rfl⟩
  · intro hne
    have hperm := List.perm_insertionSort timeRangeGE candles
    have hsort := List.sorted_insertionSort timeRangeGE candles
    cases hord : List.insertionSort timeRangeGE candles with
    | nil =>
      exact absurd ((hord ▸ hperm.symm).eq_nil) hne
    | cons c rest =>
      rw [hord] at hperm hsort
      have hmem : c ∈ candles := hperm.mem_iff.mp (List.mem_cons_self c rest)
      refine ⟨c, hmem, ?_, ?_, ?_⟩
      · intro d hd
        rcases List.mem_cons.mp (hperm.mem_iff.mpr hd) with rfl | hdr
        · exact timeRangeLE_refl d
        · exact List.rel_of_sorted_cons hsort d hdr
      · unfold get_last_price candles_default_order
        rw [hord]
        rfl
      · unfold get_last_candle_date candles_default_order
        rw [hord]
        rfl

/-- C10 (witness). Both accessors return `None` on an empty candle table. -/
theorem C10_last_price_and_date_witness :
    get_last_price [] = none ∧ get_last_candle_date [] = none :=
  (C10_last_price_and_date []).1 rfl
